import Mathlib

/-!
Verification of the telegram-quiz-backend wizard, store and bot handlers.

The development shallowly embeds the two JavaScript modules of the
repository (the SQLite data-access layer `db.js` and the Express/Telegraf
bot entry point).  Mutable SQLite tables become a `Store` record of row
lists threaded through the operations; the per-admin wizard state held in
the `adminStates` map becomes an `AdminState` value threaded through the
message handler; chat replies become values of an inductive `Reply` type
carrying the data the reply text interpolates.
-/

namespace QuizBot

/-- A question as accumulated by the admin wizard
(`state.currentQuestion` / elements of `state.quiz.questions`):
`{ text: '', options: [], correctOption: 0 }`. -/
structure WizQuestion where
  text : String
  options : List String
  correctOption : Int
  deriving Repr, DecidableEq

/-- A row of the `quizzes` table: `id, title, created_by`
(the `created_at` default timestamp column is not modelled). -/
structure QuizRow where
  id : Nat
  title : String
  createdBy : String
  deriving Repr, DecidableEq

/-- A row of the `questions` table: `id, quiz_id, text, options, correct_option`.
The `options` column stores `JSON.stringify(list)`; serialization round-trips,
so the row keeps the list itself. -/
structure QuestionRow where
  id : Nat
  quizId : Nat
  text : String
  options : List String
  correctOption : Int
  deriving Repr, DecidableEq

/-- A row of the `answers` table:
`id, user_id, quiz_id, question_id, selected_option, correct`
(the `timestamp` default column is not modelled).  `correct` is the
0/1 integer the DAL stores via `a.correct ? 1 : 0`. -/
structure AnswerRow where
  id : Nat
  userId : String
  quizId : Nat
  questionId : Nat
  selectedOption : Int
  correct : Nat
  deriving Repr, DecidableEq

/-- The SQLite database: the three tables plus the autoincrement counters
that assign `lastInsertRowid`. -/
structure Store where
  quizzes : List QuizRow
  questions : List QuestionRow
  answers : List AnswerRow
  nextQuizId : Nat
  nextQuestionId : Nat
  nextAnswerId : Nat
  deriving Repr, DecidableEq

/-- A fresh database before any insert (seeding disabled, as when the
seed guard `count > 0` fires). -/
def emptyStore : Store :=
  { quizzes := [], questions := [], answers := [],
    nextQuizId := 1, nextQuestionId := 1, nextAnswerId := 1 }

/-- Models `INSERT INTO quizzes (title, created_by) VALUES (?, ?)`;
returns `lastInsertRowid` with the updated store. -/
def insertQuizRow (title createdBy : String) (st : Store) : Nat × Store :=
  (st.nextQuizId,
   { st with quizzes := st.quizzes ++ [⟨st.nextQuizId, title, createdBy⟩],
             nextQuizId := st.nextQuizId + 1 })

/-- Models `INSERT INTO questions (quiz_id, text, options, correct_option) VALUES (?, ?, ?, ?)`. -/
def insertQuestionRow (quizId : Nat) (q : WizQuestion) (st : Store) : Store :=
  { st with
      questions := st.questions ++
        [⟨st.nextQuestionId, quizId, q.text, q.options, q.correctOption⟩],
      nextQuestionId := st.nextQuestionId + 1 }

/-- Models `INSERT INTO answers (user_id, quiz_id, question_id, selected_option, correct)
VALUES (?, ?, ?, ?, ?)`. -/
def insertAnswerRow (userId : String) (quizId : Nat)
    (questionId : Nat) (selectedOption : Int) (correct : Bool) (st : Store) : Store :=
  { st with
      answers := st.answers ++
        [⟨st.nextAnswerId, userId, quizId, questionId, selectedOption,
          if correct then 1 else 0⟩],
      nextAnswerId := st.nextAnswerId + 1 }

/-- The argument record of `dal.createQuiz({ title, createdBy, questions })`. -/
structure QuizData where
  title : String
  createdBy : String
  questions : List WizQuestion
  deriving Repr, DecidableEq

/-- Models `dal.createQuiz` in its fault-free run: insert the quiz row, then one
question row per question, returning the new quiz id.  (The transactional
fault behaviour is modelled separately by `createQuizF`.) -/
def createQuiz (qd : QuizData) (st : Store) : Nat × Store :=
  let (quizId, st1) := insertQuizRow qd.title qd.createdBy st
  (quizId, qd.questions.foldl (fun s q => insertQuestionRow quizId q s) st1)

/-- An element of the `answers` array of a `quiz_result` web-app payload:
`{ questionId, selectedOption }`. -/
structure SubmittedAnswer where
  questionId : Nat
  selectedOption : Int
  deriving Repr, DecidableEq

/-- An element of `enrichedAnswers`: the submitted answer plus the
computed `correct` flag. -/
structure EnrichedAnswer where
  questionId : Nat
  selectedOption : Int
  correct : Bool
  deriving Repr, DecidableEq

/-- Models `dal.saveQuizAnswers(userId, quizId, answers)` in its fault-free run:
one answer row per enriched answer.  (Fault behaviour: `saveQuizAnswersF`.) -/
def saveQuizAnswers (userId : String) (quizId : Nat)
    (answers : List EnrichedAnswer) (st : Store) : Store :=
  answers.foldl
    (fun s a => insertAnswerRow userId quizId a.questionId a.selectedOption a.correct s) st

/-- Models `dal.getQuizWithQuestions(quizId)`: `null` when no quiz row matches,
otherwise the quiz row plus its question rows
(`WHERE quiz_id = ? ORDER BY id ASC`; rows are appended with ascending
ids, so the filtered list is already in id order). -/
def getQuizWithQuestions (st : Store) (quizId : Nat) :
    Option (QuizRow × List QuestionRow) :=
  match st.quizzes.find? (fun q => q.id == quizId) with
  | none => none
  | some quiz => some (quiz, st.questions.filter (fun q => q.quizId == quizId))

/-!  ## Transactional fault model

`better-sqlite3`'s `db.transaction(fn)` runs `fn` inside a transaction and
rolls the database back to the state at transaction start if `fn` throws.
To check that the DAL writes are atomic we inject faults: `faults k`
tells whether the `k`-th row insert of the operation throws.  A result
`TxResult` carries the partial store at the point of failure, so only the
`runTx` rollback wrapper — not the result type — restores the original
store. -/

/-- Outcome of a fallible stateful computation: success with a value and
the resulting store, or failure carrying the partial store reached. -/
inductive TxResult (α : Type) where
  | ok (val : α) (st : Store)
  | failed (st : Store)
  deriving Repr, DecidableEq

/-- Models `db.transaction(body)`: on failure the store is rolled back to the
state at transaction start and the failure propagates. -/
def runTx {α : Type} (st : Store) (body : Store → TxResult α) : TxResult α :=
  match body st with
  | .ok v st2 => .ok v st2
  | .failed _ => .failed st

/-- The question-insert loop of `dal.createQuiz` under fault injection;
`k` numbers the next insert of the enclosing transaction. -/
def insertQuestionsF (faults : Nat → Bool) (k quizId : Nat)
    (qs : List WizQuestion) (st : Store) : TxResult Unit :=
  match qs with
  | [] => .ok () st
  | q :: rest =>
    if faults k then .failed st
    else insertQuestionsF faults (k + 1) quizId rest (insertQuestionRow quizId q st)

/-- The body of `dal.createQuiz`'s transaction under fault injection:
insert `0` is the quiz row, inserts `1 ..` are the question rows. -/
def createQuizBody (faults : Nat → Bool) (qd : QuizData) (st : Store) : TxResult Nat :=
  if faults 0 then .failed st
  else
    let (quizId, st1) := insertQuizRow qd.title qd.createdBy st
    match insertQuestionsF faults 1 quizId qd.questions st1 with
    | .ok _ st2 => .ok quizId st2
    | .failed st2 => .failed st2

/-- Models `dal.createQuiz` under fault injection: the whole body runs inside a
single `db.transaction`. -/
def createQuizF (faults : Nat → Bool) (qd : QuizData) (st : Store) : TxResult Nat :=
  runTx st (createQuizBody faults qd)

/-- The answer-insert loop of `dal.saveQuizAnswers` under fault injection. -/
def insertAnswersF (faults : Nat → Bool) (k : Nat) (userId : String) (quizId : Nat)
    (answers : List EnrichedAnswer) (st : Store) : TxResult Unit :=
  match answers with
  | [] => .ok () st
  | a :: rest =>
    if faults k then .failed st
    else insertAnswersF faults (k + 1) userId quizId rest
      (insertAnswerRow userId quizId a.questionId a.selectedOption a.correct st)

/-- Models `dal.saveQuizAnswers` under fault injection: the insert loop runs
inside a single `db.transaction`. -/
def saveQuizAnswersF (faults : Nat → Bool) (userId : String) (quizId : Nat)
    (answers : List EnrichedAnswer) (st : Store) : TxResult Unit :=
  runTx st (insertAnswersF faults 0 userId quizId answers)

/-! ## JavaScript string operations

The JS string methods the handlers use (`trim`, `split`, `includes`,
`startsWith`, `Number` parsing) are modelled as structurally recursive
functions over the string's character list. -/

/-- White space stripped by JS `String.prototype.trim` (the ASCII part,
which is all the inputs here can contain). -/
def jsWhitespace (c : Char) : Bool :=
  c == ' ' || c == '\t' || c == '\n' || c == '\r'

/-- Models JS `s.trim()`: strip leading and trailing whitespace. -/
def jsTrim (s : String) : String :=
  ⟨((s.data.dropWhile jsWhitespace).reverse.dropWhile jsWhitespace).reverse⟩

/-- Splitting a character list at every occurrence of a separator
character; adjacent separators produce empty groups, like JS
`String.prototype.split` with a one-character separator. -/
def splitChars (sep : Char) : List Char → List (List Char)
  | [] => [[]]
  | c :: rest =>
    if c = sep then [] :: splitChars sep rest
    else
      match splitChars sep rest with
      | g :: gs => (c :: g) :: gs
      | [] => [[c]]

/-- Models `text.split(';').map(p => p.trim()).filter(Boolean)` from the
`options` wizard step. -/
def splitOptions (s : String) : List String :=
  ((splitChars ';' s.data).map (fun g => jsTrim ⟨g⟩)).filter (fun p => p ≠ "")

/-- Value of a decimal digit list read most significant first. -/
def digitsVal (cs : List Char) : Nat :=
  cs.foldl (fun n c => n * 10 + (c.toNat - 48)) 0

/-- The `ExponentPart` tail after `e`/`E`: an optional sign then one or
more decimal digits, consuming the whole rest. -/
def parseExponent (cs : List Char) : Option Int :=
  match cs with
  | '+' :: rest =>
    if rest ≠ [] ∧ rest.all Char.isDigit then some (digitsVal rest) else none
  | '-' :: rest =>
    if rest ≠ [] ∧ rest.all Char.isDigit then some (-(digitsVal rest : Int)) else none
  | rest =>
    if rest ≠ [] ∧ rest.all Char.isDigit then some (digitsVal rest) else none

/-- The `StrUnsignedDecimalLiteral` grammar without `Infinity`:
`digits [. digits] [exp]`, `. digits [exp]`.  Returns
`(mantissa, fraction length, exponent)`; the literal's exact value is
`mantissa * 10 ^ (exponent - fraction length)`. -/
def parseUnsignedDecimal (cs : List Char) : Option (Nat × Nat × Int) :=
  let intPart := cs.takeWhile Char.isDigit
  let rest1 := cs.dropWhile Char.isDigit
  match rest1 with
  | '.' :: rest2 =>
    let fracPart := rest2.takeWhile Char.isDigit
    let rest3 := rest2.dropWhile Char.isDigit
    if intPart = [] ∧ fracPart = [] then none
    else
      match rest3 with
      | [] => some (digitsVal (intPart ++ fracPart), fracPart.length, 0)
      | 'e' :: rest4 =>
        (parseExponent rest4).map
          (fun e => (digitsVal (intPart ++ fracPart), fracPart.length, e))
      | 'E' :: rest4 =>
        (parseExponent rest4).map
          (fun e => (digitsVal (intPart ++ fracPart), fracPart.length, e))
      | _ => none
  | [] => if intPart = [] then none else some (digitsVal intPart, 0, 0)
  | 'e' :: rest2 =>
    if intPart = [] then none
    else (parseExponent rest2).map (fun e => (digitsVal intPart, 0, e))
  | 'E' :: rest2 =>
    if intPart = [] then none
    else (parseExponent rest2).map (fun e => (digitsVal intPart, 0, e))
  | _ => none

/-- Value of a hexadecimal digit character. -/
def charHexVal (c : Char) : Option Nat :=
  if c.isDigit then some (c.toNat - 48)
  else if 'a' ≤ c ∧ c ≤ 'f' then some (c.toNat - 87)
  else if 'A' ≤ c ∧ c ≤ 'F' then some (c.toNat - 55)
  else none

/-- Value of a nonempty digit list in the given radix, `none` on any
out-of-radix character. -/
def parseRadixDigits (radix : Nat) (cs : List Char) : Option Nat :=
  if cs = [] then none
  else
    cs.foldl
      (fun acc c =>
        match acc, charHexVal c with
        | some n, some v => if v < radix then some (n * radix + v) else none
        | _, _ => none)
      (some 0)

/-- The `NonDecimalIntegerLiteral` grammar: `0x`/`0X`, `0o`/`0O`,
`0b`/`0B` followed by digits of that radix (no sign allowed). -/
def parseNonDecimal (cs : List Char) : Option Nat :=
  match cs with
  | '0' :: x :: rest =>
    if x = 'x' ∨ x = 'X' then parseRadixDigits 16 rest
    else if x = 'o' ∨ x = 'O' then parseRadixDigits 8 rest
    else if x = 'b' ∨ x = 'B' then parseRadixDigits 2 rest
    else none
  | _ => none

/-- Exact integer value of `m * 10 ^ (e - k)` when it is an integer,
`none` otherwise. -/
def decValue (m k : Nat) (e : Int) : Option Int :=
  let shift : Int := e - (k : Int)
  if 0 ≤ shift then some ((m * 10 ^ shift.toNat : Nat) : Int)
  else
    let d : Nat := 10 ^ (-shift).toNat
    if m % d = 0 then some ((m / d : Nat) : Int) else none

/-- Models `Number(text)` followed by the source's `Number.isInteger`
test: the ECMAScript string-numeric grammar — leading/trailing
whitespace, empty string (value 0), signed decimal literals with
optional fraction and exponent, unsigned `0x`/`0o`/`0b` literals,
`Infinity` — evaluated exactly, returning the value when it is an
integer and `none` on `NaN`, infinities and non-integers.  Inputs whose
acceptance depends on float64 rounding or overflow (digit strings beyond
53 bits of precision, exponents overflowing to `Infinity`) are outside
the modelled fragment: values here are exact. -/
def parseJsInteger (s : String) : Option Int :=
  match (jsTrim s).data with
  | [] => some 0
  | cs =>
    match parseNonDecimal cs with
    | some n => some (n : Int)
    | none =>
      let sb : Int × List Char :=
        match cs with
        | '+' :: rest => (1, rest)
        | '-' :: rest => (-1, rest)
        | rest => (1, rest)
      if sb.2 = ['I', 'n', 'f', 'i', 'n', 'i', 't', 'y'] then none
      else
        match parseUnsignedDecimal sb.2 with
        | none => none
        | some (m, k, e) => (decValue m k e).map (fun v => sb.1 * v)

/-- Occurrence of `ns` as a contiguous run inside a character list. -/
def charsInclude (ns : List Char) : List Char → Bool
  | [] => ns.isEmpty
  | c :: rest => ns.isPrefixOf (c :: rest) || charsInclude ns rest

/-- Models `haystack.includes(needle)` for the start-handler URL checks. -/
def jsIncludes (haystack needle : String) : Bool :=
  charsInclude needle.data haystack.data

/-- Models `s.startsWith(pre)`. -/
def jsStartsWith (s pre : String) : Bool :=
  pre.data.isPrefixOf s.data

/-! ## Wizard state machine -/

/-- The `state.step` strings of the wizard. -/
inductive Step where
  | title
  | question_text
  | options
  | correct_index
  deriving Repr, DecidableEq

/-- One `adminStates` entry: `{ step, quiz: { title, questions }, currentQuestion }`.
In the source `currentQuestion` is absent until the title step completes;
no branch reads it before then, so it is modelled as always present,
initially `⟨"", [], 0⟩`. -/
structure AdminState where
  step : Step
  title : String
  questions : List WizQuestion
  currentQuestion : WizQuestion
  deriving Repr, DecidableEq

/-- The entry `/create_quiz` installs:
`{ step: 'title', quiz: { title: '', questions: [] } }`. -/
def initialAdminState : AdminState :=
  { step := .title, title := "", questions := [], currentQuestion := ⟨"", [], 0⟩ }

/-- The replies the bot emits, tagged by message, carrying the data the
reply text interpolates. -/
inductive Reply where
  | sendTextPlease
  | promptFirstQuestion
  | needAtLeastOneQuestion
  | quizCreated (quizId : Nat)
  | promptOptions
  | needTwoOptions
  | promptCorrectIndex (optionCount : Nat)
  | enterNumberInRange (optionCount : Nat)
  | questionSaved
  | noActiveCreation
  | quizNotFoundForResult
  | resultSaved (correct total : Nat)
  deriving Repr, DecidableEq

/-- The admin-wizard part of the `bot.on('message')` handler, entered with
the sender's `adminStates` entry present.  Returns the entry afterwards
(`none` when the handler ran `adminStates.delete`), the store, and the
reply.  Mirrors the source branch for branch, including the unreachable
`text === ''` finalization inside the `question_text` step. -/
def handleWizard (userId : String) (st : AdminState) (msgText : Option String)
    (store : Store) : Option AdminState × Store × Reply :=
  match msgText.map jsTrim with
  | none => (some st, store, .sendTextPlease)
  | some text =>
    if text = "" then (some st, store, .sendTextPlease)
    else
      match st.step with
      | .title =>
        (some { st with title := text, step := .question_text,
                        currentQuestion := ⟨"", [], 0⟩ },
         store, .promptFirstQuestion)
      | .question_text =>
        if text = "" then
          if st.questions.length = 0 then
            (some st, store, .needAtLeastOneQuestion)
          else
            let (quizId, store2) := createQuiz ⟨st.title, userId, st.questions⟩ store
            (none, store2, .quizCreated quizId)
        else
          (some { st with currentQuestion := { st.currentQuestion with text := text },
                          step := .options },
           store, .promptOptions)
      | .options =>
        let parts := splitOptions text
        if parts.length < 2 then (some st, store, .needTwoOptions)
        else
          (some { st with currentQuestion := { st.currentQuestion with options := parts },
                          step := .correct_index },
           store, .promptCorrectIndex parts.length)
      | .correct_index =>
        let len := st.currentQuestion.options.length
        match parseJsInteger text with
        | none => (some st, store, .enterNumberInRange len)
        | some index =>
          if index < 1 ∨ index > (len : Int) then
            (some st, store, .enterNumberInRange len)
          else
            (some { st with
                      questions := st.questions ++
                        [{ st.currentQuestion with correctOption := index - 1 }],
                      currentQuestion := ⟨"", [], 0⟩,
                      step := .question_text },
             store, .questionSaved)

/-- Models the `bot.action('finish_quiz')` handler. -/
def handleFinishAction (userId : String) (st? : Option AdminState) (store : Store) :
    Option AdminState × Store × Reply :=
  match st? with
  | none => (none, store, .noActiveCreation)
  | some st =>
    if st.questions.length = 0 then (some st, store, .needAtLeastOneQuestion)
    else
      let (quizId, store2) := createQuiz ⟨st.title, userId, st.questions⟩ store
      (none, store2, .quizCreated quizId)

/-- One inbound wizard event: a chat message (with optional text) or the
`finish_quiz` callback button. -/
inductive WizardInput where
  | message (text : Option String)
  | finishAction
  deriving Repr, DecidableEq

/-- Dispatch of one wizard event against the admin's current
`adminStates` entry; with no entry, plain messages are ignored and the
finish action replies `noActiveCreation`. -/
def wizardStep (userId : String) (acc : Option AdminState × Store)
    (ev : WizardInput) : Option AdminState × Store :=
  match ev with
  | .message t =>
    match acc.1 with
    | none => acc
    | some st =>
      let (st2, store2, _) := handleWizard userId st t acc.2
      (st2, store2)
  | .finishAction =>
    let (st2, store2, _) := handleFinishAction userId acc.1 acc.2
    (st2, store2)

/-- A whole wizard session: `/create_quiz` installs the fresh draft, then
the events are processed in order. -/
def runWizard (userId : String) (events : List WizardInput) (store : Store) :
    Option AdminState × Store :=
  events.foldl (wizardStep userId) (some initialAdminState, store)

/-! ## Web-app payload handling -/

/-- The `enrichedAnswers` mapping of one submitted answer:
`const q = byQuestionId.get(a.questionId);
 const correct = q && q.correct_option === a.selectedOption;`
(question ids are unique, so first match equals the map lookup). -/
def enrich (questions : List QuestionRow) (a : SubmittedAnswer) : EnrichedAnswer :=
  match questions.find? (fun q => q.id == a.questionId) with
  | some q => ⟨a.questionId, a.selectedOption, q.correctOption == a.selectedOption⟩
  | none => ⟨a.questionId, a.selectedOption, false⟩

/-- The `quiz_result` web-app-data branch of `bot.on('message')`: load the
quiz, enrich every submitted answer with its correctness, save all rows,
reply with the correct/total tally. -/
def handleWebAppData (userId : String) (quizId : Nat)
    (answers : List SubmittedAnswer) (store : Store) : Store × Reply :=
  match getQuizWithQuestions store quizId with
  | none => (store, .quizNotFoundForResult)
  | some (_, questions) =>
    let enriched := answers.map (enrich questions)
    let store2 := saveQuizAnswers userId quizId enriched store
    (store2, .resultSaved (enriched.filter (fun a => a.correct)).length enriched.length)

/-! ## Start handler -/

/-- The `hasValidWebAppUrl` check of `bot.start`: the configured URL is
truthy and contains none of the substrings `localhost`, `127.0.0.1`,
`your-`, `example`. -/
def hasValidWebAppUrl (url : String) : Bool :=
  url ≠ "" && !jsIncludes url "localhost" && !jsIncludes url "127.0.0.1" &&
    !jsIncludes url "your-" && !jsIncludes url "example"

/-- The observable shape of the `bot.start` welcome reply: the keyboard
button's `web_app.url` when a button is attached, and whether the text
falls back to listing the `/create_quiz` and `/results` commands. -/
structure WelcomeReply where
  webAppButton : Option String
  listsCommands : Bool
  deriving Repr, DecidableEq

/-- The `bot.start` handler on the resolved `WEB_APP_URL`. -/
def botStart (url : String) : WelcomeReply :=
  let valid := hasValidWebAppUrl url
  { webAppButton := if valid then some url else none,
    listsCommands := !valid }

/-- Modelled from the spec (refinement comparison for the welcome-reply
claim, not from the source): "syntactically a real URL, not a
placeholder/localhost value" — an `http://` or `https://` scheme followed
by a nonempty host, which is neither localhost nor a placeholder. -/
def specValidWebViewUrl (url : String) : Bool :=
  ((jsStartsWith url "http://" && url.data.length > 7) ||
   (jsStartsWith url "https://" && url.data.length > 8)) &&
  !jsIncludes url "localhost" && !jsIncludes url "127.0.0.1" &&
  !jsIncludes url "your-" && !jsIncludes url "example"

/-! ## Sample data for concrete evaluations -/

/-- A draft in the `question_text` step holding one collected question. -/
def sampleDraft : AdminState :=
  { step := .question_text, title := "T",
    questions := [⟨"Q1", ["A", "B"], 0⟩],
    currentQuestion := ⟨"", [], 0⟩ }

/-- A draft in the `question_text` step with no collected question yet. -/
def sampleEmptyDraft : AdminState :=
  { step := .question_text, title := "T",
    questions := [],
    currentQuestion := ⟨"", [], 0⟩ }

/-- A draft in the `correct_index` step whose in-progress question has
three options. -/
def sampleIndexDraft : AdminState :=
  { step := .correct_index, title := "T",
    questions := [],
    currentQuestion := ⟨"Q", ["A", "B", "C"], 0⟩ }

/-! ## Claim theorems -/

/-- C1: evaluation at the failing input.  With a draft in the
`question_text` step holding one collected question, an incoming message
whose text is the empty string does NOT finalize the draft: the handler's
`!text` guard fires first, so the bot only replies "please send a text
message", the draft stays in the map unchanged, and no quiz is created —
even though the bot's own prompt announces that an empty line finishes
question entry (the `text === ''` finalization branch is unreachable). -/
theorem empty_message_hits_guard_not_finalize :
  handleWizard "9" sampleDraft (some "") emptyStore =
    (some sampleDraft, emptyStore, .sendTextPlease) := by
  rfl

/-- C2: in every wizard state, for every admin draft and store, a message
with absent text or whitespace-only text produces exactly the fixed
"please send a text message" reply and leaves the draft and the store
entirely unchanged, so no other branch of the wizard runs. -/
theorem empty_or_absent_text_is_frame (u : String) (st : AdminState) (store : Store) :
  handleWizard u st none store = (some st, store, .sendTextPlease) ∧
  ∀ t : String, jsTrim t = "" →
    handleWizard u st (some t) store = (some st, store, .sendTextPlease) := by
  constructor
  · rfl
  · intro t h
    simp [handleWizard, h]

/-- Witness for C2 at a concrete draft and the message `"  "`. -/
theorem empty_or_absent_text_is_frame_witness :
  jsTrim "  " = "" ∧
  handleWizard "9" sampleDraft (some "  ") emptyStore =
    (some sampleDraft, emptyStore, .sendTextPlease) :=
  ⟨by decide, (empty_or_absent_text_is_frame "9" sampleDraft emptyStore).2 "  " (by decide)⟩

/-- C8: in the `question_text` step with zero collected questions, an
empty question-text never finalizes the draft (no quiz-store write, the
draft stays in the map) and never mutates it; the handler only emits the
text-message validation reply. -/
theorem empty_question_text_zero_questions_safe (u : String) (st : AdminState)
    (store : Store) (t : String)
    (_hstep : st.step = .question_text) (_hzero : st.questions = [])
    (ht : jsTrim t = "") :
  handleWizard u st (some t) store = (some st, store, .sendTextPlease) := by
  simp [handleWizard, ht]

/-- Witness for C8 at a concrete empty draft and the empty message. -/
theorem empty_question_text_zero_questions_safe_witness :
  sampleEmptyDraft.step = .question_text ∧ sampleEmptyDraft.questions = [] ∧
  jsTrim "" = "" ∧
  handleWizard "9" sampleEmptyDraft (some "") emptyStore =
    (some sampleEmptyDraft, emptyStore, .sendTextPlease) :=
  ⟨rfl, rfl, rfl,
   empty_question_text_zero_questions_safe "9" sampleEmptyDraft emptyStore "" rfl rfl rfl⟩



/-- C5: in the `options` step the input is split on `;`, pieces trimmed
and empty pieces dropped; with fewer than 2 options the wizard emits a
validation error and stays in `options` with draft and store unchanged,
otherwise it stores the options and moves to `correct_index` announcing
the valid range.  `"A; B ;C"` splits to `["A","B","C"]`; `"A"` gives one
option. -/
theorem options_step_splits_and_validates (u : String) (st : AdminState)
    (store : Store) (t : String) (hstep : st.step = .options) :
  ((splitOptions (jsTrim t)).length < 2 →
    handleWizard u st (some t) store =
      (some st, store,
       if jsTrim t = "" then .sendTextPlease else .needTwoOptions)) ∧
  (2 ≤ (splitOptions (jsTrim t)).length →
    handleWizard u st (some t) store =
      (some { st with
                step := .correct_index,
                currentQuestion :=
                  { st.currentQuestion with options := splitOptions (jsTrim t) } },
       store, .promptCorrectIndex (splitOptions (jsTrim t)).length)) ∧
  splitOptions "A; B ;C" = ["A", "B", "C"] ∧ splitOptions "A" = ["A"] := by
  refine ⟨?_, ?_, by decide, by decide⟩
  · intro hlt
    by_cases h : jsTrim t = ""
    · simp [handleWizard, h]
    · simp [handleWizard, h, hstep, hlt]
  · intro hge
    have h : jsTrim t ≠ "" := by
      intro h0
      rw [h0] at hge
      simp [splitOptions, splitChars, jsTrim] at hge
    have hnlt : ¬ (splitOptions (jsTrim t)).length < 2 := by omega
    simp [handleWizard, h, hstep, hnlt]

/-- Witness for C5: the draft with three options entered as
`"A; B ;C"` advances to `correct_index`, and `"A"` is rejected. -/
theorem options_step_splits_and_validates_witness :
  handleWizard "9" { sampleEmptyDraft with step := .options } (some "A; B ;C") emptyStore =
    (some { sampleEmptyDraft with
              step := .correct_index,
              currentQuestion := ⟨"", ["A", "B", "C"], 0⟩ },
     emptyStore, .promptCorrectIndex 3) ∧
  handleWizard "9" { sampleEmptyDraft with step := .options } (some "A") emptyStore =
    (some { sampleEmptyDraft with step := .options }, emptyStore, .needTwoOptions) := by
  constructor
  · exact (options_step_splits_and_validates "9" _ emptyStore "A; B ;C" rfl).2.1 (by decide)
  · exact (options_step_splits_and_validates "9" _ emptyStore "A" rfl).1 (by decide)

/-- C4: in the `correct_index` step the input is parsed as an integer;
a non-integer or a value outside `[1, option count]` draws the
range-restating validation error with draft and store unchanged, while a
value `n` in range stores correct index `n - 1`, appends the completed
question, resets the in-progress question and returns to
`question_text`. -/
theorem correct_index_step_validates_and_stores (u : String) (st : AdminState)
    (store : Store) (t : String) (hstep : st.step = .correct_index) :
  ((∀ n : Int, parseJsInteger (jsTrim t) = some n →
      n < 1 ∨ (st.currentQuestion.options.length : Int) < n) →
    jsTrim t ≠ "" →
    handleWizard u st (some t) store =
      (some st, store, .enterNumberInRange st.currentQuestion.options.length)) ∧
  (∀ n : Int, parseJsInteger (jsTrim t) = some n →
    1 ≤ n → n ≤ (st.currentQuestion.options.length : Int) →
    handleWizard u st (some t) store =
      (some { st with
                step := .question_text,
                questions := st.questions ++
                  [{ st.currentQuestion with correctOption := n - 1 }],
                currentQuestion := ⟨"", [], 0⟩ },
       store, .questionSaved)) := by
  constructor
  · intro hbad hne
    cases hp : parseJsInteger (jsTrim t) with
    | none => simp [handleWizard, hne, hstep, hp]
    | some n =>
      have hrange := hbad n hp
      have : n < 1 ∨ (st.currentQuestion.options.length : Int) < n := hrange
      simp [handleWizard, hne, hstep, hp, this]
  · intro n hp h1 h2
    have hne : jsTrim t ≠ "" := by
      intro h0
      rw [h0] at hp
      rw [show parseJsInteger "" = some 0 from by decide] at hp
      injection hp with h
      omega
    have hnr : ¬ (n < 1 ∨ (st.currentQuestion.options.length : Int) < n) := by omega
    simp [handleWizard, hne, hstep, hp, hnr]

/-- Witness for C4: with three options, `"0"` and `"5"` are rejected,
while `"2"` — and the equally JS-parseable spelling `"2.0"` — is stored
as zero-based index 1. -/
theorem correct_index_step_validates_and_stores_witness :
  handleWizard "9" sampleIndexDraft (some "0") emptyStore =
    (some sampleIndexDraft, emptyStore, .enterNumberInRange 3) ∧
  handleWizard "9" sampleIndexDraft (some "5") emptyStore =
    (some sampleIndexDraft, emptyStore, .enterNumberInRange 3) ∧
  handleWizard "9" sampleIndexDraft (some "2") emptyStore =
    (some { sampleIndexDraft with
              step := .question_text,
              questions := [⟨"Q", ["A", "B", "C"], 1⟩],
              currentQuestion := ⟨"", [], 0⟩ },
     emptyStore, .questionSaved) ∧
  handleWizard "9" sampleIndexDraft (some "2.0") emptyStore =
    (some { sampleIndexDraft with
              step := .question_text,
              questions := [⟨"Q", ["A", "B", "C"], 1⟩],
              currentQuestion := ⟨"", [], 0⟩ },
     emptyStore, .questionSaved) := by
  refine ⟨?_, ?_, ?_, ?_⟩
  · exact (correct_index_step_validates_and_stores "9" sampleIndexDraft emptyStore "0" rfl).1
      (by intro n hn
          rw [show parseJsInteger (jsTrim "0") = some 0 from by decide] at hn
          injection hn with h
          subst h
          left
          decide) (by decide)
  · exact (correct_index_step_validates_and_stores "9" sampleIndexDraft emptyStore "5" rfl).1
      (by intro n hn
          rw [show parseJsInteger (jsTrim "5") = some 5 from by decide] at hn
          injection hn with h
          subst h
          right
          decide) (by decide)
  · have h := (correct_index_step_validates_and_stores "9" sampleIndexDraft emptyStore "2" rfl).2
      2 (by decide) (by decide) (by decide)
    simpa using h
  · have h := (correct_index_step_validates_and_stores "9" sampleIndexDraft emptyStore "2.0" rfl).2
      2 (by decide) (by decide) (by decide)
    simpa using h

/-- C9 counterexample: the start handler attaches the web-view button for
the configured value `"banana"`, which is not a syntactically valid URL —
the source only checks substrings, never URL syntax — so "button if and
only if syntactically valid real URL" fails at this input. -/
theorem welcome_button_shown_for_invalid_url :
  (botStart "banana").webAppButton = some "banana" ∧
  (botStart "banana").listsCommands = false ∧
  specValidWebViewUrl "banana" = false := by
  refine ⟨?_, ?_, ?_⟩ <;> decide

/-- C9 (amended): the welcome reply offers the web-view button if and
only if the configured URL is nonempty and contains none of the
substrings `localhost`, `127.0.0.1`, `your-`, `example`; otherwise the
reply lists the text commands and carries no button.  (The source's check
is this substring heuristic; it never validates URL syntax.) -/
theorem welcome_button_iff_substring_heuristic (url : String) :
  ((url ≠ "" ∧ jsIncludes url "localhost" = false ∧
    jsIncludes url "127.0.0.1" = false ∧ jsIncludes url "your-" = false ∧
    jsIncludes url "example" = false) →
    (botStart url).webAppButton = some url ∧ (botStart url).listsCommands = false) ∧
  ((url = "" ∨ jsIncludes url "localhost" = true ∨
    jsIncludes url "127.0.0.1" = true ∨ jsIncludes url "your-" = true ∨
    jsIncludes url "example" = true) →
    (botStart url).webAppButton = none ∧ (botStart url).listsCommands = true) := by
  constructor
  · rintro ⟨h1, h2, h3, h4, h5⟩
    have hv : hasValidWebAppUrl url = true := by
      simp [hasValidWebAppUrl, h1, h2, h3, h4, h5]
    simp [botStart, hv]
  · intro h
    have hv : hasValidWebAppUrl url = false := by
      rcases h with h | h | h | h | h <;> simp [hasValidWebAppUrl, h]
    simp [botStart, hv]

/-- Witness for the amended C9: a clean URL gets the button, the
placeholder default gets the command list instead. -/
theorem welcome_button_iff_substring_heuristic_witness :
  ((botStart "https://quiz.app").webAppButton = some "https://quiz.app" ∧
   (botStart "https://quiz.app").listsCommands = false) ∧
  ((botStart "https://your-repl-url-here.example").webAppButton = none ∧
   (botStart "https://your-repl-url-here.example").listsCommands = true) :=
  ⟨(welcome_button_iff_substring_heuristic "https://quiz.app").1
     (by refine ⟨by decide, by decide, by decide, by decide, by decide⟩),
   (welcome_button_iff_substring_heuristic "https://your-repl-url-here.example").2
     (by right; right; right; left; decide)⟩

/-- If some question insert of the loop faults, the loop fails. -/
theorem insertQuestionsF_fault (faults : Nat → Bool) (quizId : Nat) :
    ∀ (qs : List WizQuestion) (k0 : Nat) (st : Store),
    (∃ j, j < qs.length ∧ faults (k0 + j) = true) →
    ∃ st', insertQuestionsF faults k0 quizId qs st = .failed st' := by
  intro qs
  induction qs with
  | nil =>
    intro k0 st h
    obtain ⟨j, hj, _⟩ := h
    simp at hj
  | cons q rest ih =>
    intro k0 st h
    obtain ⟨j, hj, hf⟩ := h
    by_cases h0 : faults k0
    · exact ⟨st, by simp [insertQuestionsF, h0]⟩
    · match j, hj with
      | 0, _ =>
        rw [Nat.add_zero] at hf
        exact absurd hf (by simpa using h0)
      | j + 1, hj =>
        obtain ⟨st', hst'⟩ := ih (k0 + 1) (insertQuestionRow quizId q st)
          ⟨j, by simpa using hj, by rw [show k0 + 1 + j = k0 + (j + 1) by omega]; exact hf⟩
        exact ⟨st', by simp [insertQuestionsF, h0, hst']⟩

/-- With no faulting insert, the loop performs exactly the fold of the
row inserts. -/
theorem insertQuestionsF_ok (faults : Nat → Bool) (quizId : Nat) :
    ∀ (qs : List WizQuestion) (k0 : Nat) (st : Store),
    (∀ j, j < qs.length → faults (k0 + j) = false) →
    insertQuestionsF faults k0 quizId qs st =
      .ok () (qs.foldl (fun s q => insertQuestionRow quizId q s) st) := by
  intro qs
  induction qs with
  | nil => intro k0 st _; rfl
  | cons q rest ih =>
    intro k0 st h
    have h0 : faults k0 = false := by simpa using h 0 (by simp)
    have hrest : ∀ j, j < rest.length → faults (k0 + 1 + j) = false := by
      intro j hj
      rw [show k0 + 1 + j = k0 + (j + 1) by omega]
      exact h (j + 1) (by simpa using hj)
    simp [insertQuestionsF, h0, ih (k0 + 1) (insertQuestionRow quizId q st) hrest]

/-- If some answer insert of the loop faults, the loop fails. -/
theorem insertAnswersF_fault (faults : Nat → Bool) (u : String) (qid : Nat) :
    ∀ (ans : List EnrichedAnswer) (k0 : Nat) (st : Store),
    (∃ j, j < ans.length ∧ faults (k0 + j) = true) →
    ∃ st', insertAnswersF faults k0 u qid ans st = .failed st' := by
  intro ans
  induction ans with
  | nil =>
    intro k0 st h
    obtain ⟨j, hj, _⟩ := h
    simp at hj
  | cons a rest ih =>
    intro k0 st h
    obtain ⟨j, hj, hf⟩ := h
    by_cases h0 : faults k0
    · exact ⟨st, by simp [insertAnswersF, h0]⟩
    · match j, hj with
      | 0, _ =>
        rw [Nat.add_zero] at hf
        exact absurd hf (by simpa using h0)
      | j + 1, hj =>
        obtain ⟨st', hst'⟩ :=
          ih (k0 + 1) (insertAnswerRow u qid a.questionId a.selectedOption a.correct st)
            ⟨j, by simpa using hj, by rw [show k0 + 1 + j = k0 + (j + 1) by omega]; exact hf⟩
        exact ⟨st', by simp [insertAnswersF, h0, hst']⟩

/-- With no faulting insert, the answer loop performs exactly the fold of
the row inserts. -/
theorem insertAnswersF_ok (faults : Nat → Bool) (u : String) (qid : Nat) :
    ∀ (ans : List EnrichedAnswer) (k0 : Nat) (st : Store),
    (∀ j, j < ans.length → faults (k0 + j) = false) →
    insertAnswersF faults k0 u qid ans st =
      .ok () (ans.foldl
        (fun s a => insertAnswerRow u qid a.questionId a.selectedOption a.correct s) st) := by
  intro ans
  induction ans with
  | nil => intro k0 st _; rfl
  | cons a rest ih =>
    intro k0 st h
    have h0 : faults k0 = false := by simpa using h 0 (by simp)
    have hrest : ∀ j, j < rest.length → faults (k0 + 1 + j) = false := by
      intro j hj
      rw [show k0 + 1 + j = k0 + (j + 1) by omega]
      exact h (j + 1) (by simpa using hj)
    simp [insertAnswersF, h0,
      ih (k0 + 1) (insertAnswerRow u qid a.questionId a.selectedOption a.correct st) hrest]

/-- C6: `createQuiz` and `saveQuizAnswers` are atomic.  If any sub-insert
of a call faults — insert `0` is `createQuiz`'s quiz row, inserts
`1 .. questions.length` its question rows; inserts `0 .. answers.length-1`
are `saveQuizAnswers`'s rows — the whole operation fails and the store is
exactly the one from before the call, so no row of the failed call
remains visible.  With no fault, `createQuiz` succeeds returning the
newly assigned quiz identifier, and `saveQuizAnswers` succeeds with all
rows inserted. -/
theorem store_write_atomicity (faults : Nat → Bool) (qd : QuizData) (u : String)
    (qid : Nat) (ans : List EnrichedAnswer) (st : Store) :
  ((∃ k, k ≤ qd.questions.length ∧ faults k = true) →
    createQuizF faults qd st = .failed st) ∧
  ((∀ k, k ≤ qd.questions.length → faults k = false) →
    createQuizF faults qd st = .ok st.nextQuizId (createQuiz qd st).2) ∧
  ((∃ k, k < ans.length ∧ faults k = true) →
    saveQuizAnswersF faults u qid ans st = .failed st) ∧
  ((∀ k, k < ans.length → faults k = false) →
    saveQuizAnswersF faults u qid ans st = .ok () (saveQuizAnswers u qid ans st)) := by
  refine ⟨?_, ?_, ?_, ?_⟩
  · rintro ⟨k, hk, hf⟩
    by_cases h0 : faults 0
    · simp [createQuizF, runTx, createQuizBody, h0]
    · match k, hk with
      | 0, _ => exact absurd hf (by simpa using h0)
      | k + 1, hk =>
        obtain ⟨st', hst'⟩ := insertQuestionsF_fault faults st.nextQuizId qd.questions 1
          (insertQuizRow qd.title qd.createdBy st).2
          ⟨k, by omega, by rw [show 1 + k = k + 1 by omega]; exact hf⟩
        simp [createQuizF, runTx, createQuizBody, h0, insertQuizRow] at hst' ⊢
        simp [hst']
  · intro h
    have h0 : faults 0 = false := h 0 (by omega)
    have e := insertQuestionsF_ok faults st.nextQuizId qd.questions 1
      (insertQuizRow qd.title qd.createdBy st).2
      (by intro j hj
          rw [show 1 + j = j + 1 by omega]
          exact h (j + 1) (by omega))
    simp [createQuizF, runTx, createQuizBody, h0, insertQuizRow] at e ⊢
    simp [e, createQuiz, insertQuizRow]
  · rintro ⟨k, hk, hf⟩
    obtain ⟨st', hst'⟩ := insertAnswersF_fault faults u qid ans 0 st ⟨k, by omega, by simpa using hf⟩
    simp [saveQuizAnswersF, runTx, hst']
  · intro h
    have e := insertAnswersF_ok faults u qid ans 0 st (by intro j hj; simpa using h j hj)
    simp [saveQuizAnswersF, runTx, e, saveQuizAnswers]

/-- Sample quiz payload with two questions for the atomicity witness. -/
def sampleQuizData : QuizData :=
  ⟨"T", "9", [⟨"Q1", ["A", "B"], 0⟩, ⟨"Q2", ["C", "D"], 1⟩]⟩

/-- Sample enriched answers for the atomicity witness. -/
def sampleAnswers : List EnrichedAnswer :=
  [⟨1, 0, true⟩, ⟨2, 1, false⟩]

/-- Witness for C6: failing the last sub-insert of either operation
leaves the store untouched; the fault-free runs succeed, `createQuiz`
returning the fresh quiz id 1. -/
theorem store_write_atomicity_witness :
  createQuizF (fun k => k == 2) sampleQuizData emptyStore = .failed emptyStore ∧
  createQuizF (fun _ => false) sampleQuizData emptyStore =
    .ok 1 (createQuiz sampleQuizData emptyStore).2 ∧
  saveQuizAnswersF (fun k => k == 1) "9" 1 sampleAnswers emptyStore = .failed emptyStore ∧
  saveQuizAnswersF (fun _ => false) "9" 1 sampleAnswers emptyStore =
    .ok () (saveQuizAnswers "9" 1 sampleAnswers emptyStore) :=
  ⟨(store_write_atomicity (fun k => k == 2) sampleQuizData "9" 1 sampleAnswers emptyStore).1
     ⟨2, by decide, rfl⟩,
   (store_write_atomicity (fun _ => false) sampleQuizData "9" 1 sampleAnswers emptyStore).2.1
     (fun _ _ => rfl),
   (store_write_atomicity (fun k => k == 1) sampleQuizData "9" 1 sampleAnswers emptyStore).2.2.1
     ⟨1, by decide, rfl⟩,
   (store_write_atomicity (fun _ => false) sampleQuizData "9" 1 sampleAnswers emptyStore).2.2.2
     (fun _ _ => rfl)⟩

/-- A wizard question whose zero-based correct index is a valid position
in its options list. -/
def QOk (q : WizQuestion) : Prop :=
  0 ≤ q.correctOption ∧ q.correctOption < (q.options.length : Int)

/-- A stored question row whose correct index is a valid position in its
options list. -/
def rowOk (r : QuestionRow) : Prop :=
  0 ≤ r.correctOption ∧ r.correctOption < (r.options.length : Int)

/-- Every fully-collected question of the draft (if any) is in bounds. -/
def draftQuestionsOk : Option AdminState → Prop
  | none => True
  | some st => ∀ q ∈ st.questions, QOk q

/-- Every question row of the store is in bounds. -/
def storeQuestionsOk (store : Store) : Prop :=
  ∀ r ∈ store.questions, rowOk r

theorem insertQuestionRow_ok {quizId : Nat} {q : WizQuestion} {st : Store}
    (hst : storeQuestionsOk st) (hq : QOk q) :
    storeQuestionsOk (insertQuestionRow quizId q st) := by
  intro r hr
  simp [insertQuestionRow] at hr
  rcases hr with hr | hr
  · exact hst r hr
  · subst hr
    exact hq

theorem foldl_insertQuestionRow_ok {quizId : Nat} :
    ∀ (qs : List WizQuestion) (st : Store), storeQuestionsOk st →
    (∀ q ∈ qs, QOk q) →
    storeQuestionsOk (qs.foldl (fun s q => insertQuestionRow quizId q s) st) := by
  intro qs
  induction qs with
  | nil => intro st hst _; exact hst
  | cons q rest ih =>
    intro st hst hqs
    simp only [List.foldl_cons]
    exact ih (insertQuestionRow quizId q st)
      (insertQuestionRow_ok hst (hqs q (by simp)))
      (fun p hp => hqs p (by simp [hp]))

theorem createQuiz_storeQuestionsOk {qd : QuizData} {st : Store}
    (hst : storeQuestionsOk st) (hqs : ∀ q ∈ qd.questions, QOk q) :
    storeQuestionsOk (createQuiz qd st).2 := by
  have h1 : storeQuestionsOk (insertQuizRow qd.title qd.createdBy st).2 := by
    intro r hr
    exact hst r (by simpa [insertQuizRow] using hr)
  exact foldl_insertQuestionRow_ok qd.questions _ h1 hqs

/-- Equation: a message with absent text replies `sendTextPlease`. -/
theorem handleWizard_none_eq (u : String) (st : AdminState) (store : Store) :
    handleWizard u st none store = (some st, store, .sendTextPlease) := rfl

/-- Equation: a message whose trimmed text is empty replies
`sendTextPlease`. -/
theorem handleWizard_empty_eq (u : String) (st : AdminState) (store : Store)
    (t : String) (he : jsTrim t = "") :
    handleWizard u st (some t) store = (some st, store, .sendTextPlease) := by
  simp [handleWizard, he]

/-- Equation for the `title` step on nonempty text. -/
theorem handleWizard_title_eq (u : String) (st : AdminState) (store : Store)
    (t : String) (he : jsTrim t ≠ "") (hstep : st.step = .title) :
    handleWizard u st (some t) store =
      (some { st with title := jsTrim t, step := .question_text,
                      currentQuestion := ⟨"", [], 0⟩ },
       store, .promptFirstQuestion) := by
  simp [handleWizard, he, hstep]

/-- Equation for the `question_text` step on nonempty text. -/
theorem handleWizard_qtext_eq (u : String) (st : AdminState) (store : Store)
    (t : String) (he : jsTrim t ≠ "") (hstep : st.step = .question_text) :
    handleWizard u st (some t) store =
      (some { st with currentQuestion := { st.currentQuestion with text := jsTrim t },
                      step := .options },
       store, .promptOptions) := by
  simp [handleWizard, he, hstep]

/-- Equation for the `options` step with fewer than two parsed options. -/
theorem handleWizard_options_small_eq (u : String) (st : AdminState) (store : Store)
    (t : String) (he : jsTrim t ≠ "") (hstep : st.step = .options)
    (hlen : (splitOptions (jsTrim t)).length < 2) :
    handleWizard u st (some t) store = (some st, store, .needTwoOptions) := by
  simp [handleWizard, he, hstep, hlen]

/-- Equation for the `options` step with at least two parsed options. -/
theorem handleWizard_options_good_eq (u : String) (st : AdminState) (store : Store)
    (t : String) (he : jsTrim t ≠ "") (hstep : st.step = .options)
    (hlen : ¬ (splitOptions (jsTrim t)).length < 2) :
    handleWizard u st (some t) store =
      (some { st with
                currentQuestion :=
                  { st.currentQuestion with options := splitOptions (jsTrim t) },
                step := .correct_index },
       store, .promptCorrectIndex (splitOptions (jsTrim t)).length) := by
  simp [handleWizard, he, hstep, hlen]

/-- Equation for the `correct_index` step on unparseable text. -/
theorem handleWizard_index_noparse_eq (u : String) (st : AdminState) (store : Store)
    (t : String) (he : jsTrim t ≠ "") (hstep : st.step = .correct_index)
    (hp : parseJsInteger (jsTrim t) = none) :
    handleWizard u st (some t) store =
      (some st, store, .enterNumberInRange st.currentQuestion.options.length) := by
  simp [handleWizard, he, hstep, hp]

/-- Equation for the `correct_index` step on an out-of-range integer. -/
theorem handleWizard_index_bad_eq (u : String) (st : AdminState) (store : Store)
    (t : String) (n : Int) (he : jsTrim t ≠ "") (hstep : st.step = .correct_index)
    (hp : parseJsInteger (jsTrim t) = some n)
    (hr : n < 1 ∨ n > (st.currentQuestion.options.length : Int)) :
    handleWizard u st (some t) store =
      (some st, store, .enterNumberInRange st.currentQuestion.options.length) := by
  simp [handleWizard, he, hstep, hp, hr]

/-- Equation for the `correct_index` step on an in-range integer. -/
theorem handleWizard_index_good_eq (u : String) (st : AdminState) (store : Store)
    (t : String) (n : Int) (he : jsTrim t ≠ "") (hstep : st.step = .correct_index)
    (hp : parseJsInteger (jsTrim t) = some n)
    (hr : ¬ (n < 1 ∨ n > (st.currentQuestion.options.length : Int))) :
    handleWizard u st (some t) store =
      (some { st with
                step := .question_text,
                questions := st.questions ++
                  [{ st.currentQuestion with correctOption := n - 1 }],
                currentQuestion := ⟨"", [], 0⟩ },
       store, .questionSaved) := by
  simp [handleWizard, he, hstep, hp, hr]

theorem handleWizard_preserves_ok (u : String) (st : AdminState)
    (msgText : Option String) (store : Store)
    (hd : ∀ q ∈ st.questions, QOk q) (hs : storeQuestionsOk store) :
    draftQuestionsOk (handleWizard u st msgText store).1 ∧
    storeQuestionsOk (handleWizard u st msgText store).2.1 := by
  match msgText with
  | none => exact ⟨hd, hs⟩
  | some t =>
    by_cases he : jsTrim t = ""
    · rw [handleWizard_empty_eq u st store t he]
      exact ⟨hd, hs⟩
    · cases hstep : st.step with
      | title =>
        rw [handleWizard_title_eq u st store t he hstep]
        exact ⟨hd, hs⟩
      | question_text =>
        rw [handleWizard_qtext_eq u st store t he hstep]
        exact ⟨hd, hs⟩
      | options =>
        by_cases hlen : (splitOptions (jsTrim t)).length < 2
        · rw [handleWizard_options_small_eq u st store t he hstep hlen]
          exact ⟨hd, hs⟩
        · rw [handleWizard_options_good_eq u st store t he hstep hlen]
          exact ⟨hd, hs⟩
      | correct_index =>
        match hp : parseJsInteger (jsTrim t) with
        | none =>
          rw [handleWizard_index_noparse_eq u st store t he hstep hp]
          exact ⟨hd, hs⟩
        | some n =>
          by_cases hr : n < 1 ∨ n > (st.currentQuestion.options.length : Int)
          · rw [handleWizard_index_bad_eq u st store t n he hstep hp hr]
            exact ⟨hd, hs⟩
          · rw [handleWizard_index_good_eq u st store t n he hstep hp hr]
            refine ⟨?_, hs⟩
            intro q hq
            push_neg at hr
            simp at hq
            rcases hq with hq | hq
            · exact hd q hq
            · subst hq
              obtain ⟨h1, h2⟩ := hr
              show 0 ≤ n - 1 ∧ n - 1 < (st.currentQuestion.options.length : Int)
              omega

theorem handleFinishAction_preserves_ok (u : String) (st? : Option AdminState)
    (store : Store)
    (hd : draftQuestionsOk st?) (hs : storeQuestionsOk store) :
    draftQuestionsOk (handleFinishAction u st? store).1 ∧
    storeQuestionsOk (handleFinishAction u st? store).2.1 := by
  match st? with
  | none => exact ⟨trivial, hs⟩
  | some st =>
    by_cases hlen : st.questions.length = 0
    · simp only [handleFinishAction, if_pos hlen]
      exact ⟨hd, hs⟩
    · simp only [handleFinishAction, if_neg hlen]
      exact ⟨trivial, createQuiz_storeQuestionsOk hs hd⟩

theorem wizardStep_preserves_ok (u : String) (acc : Option AdminState × Store)
    (ev : WizardInput)
    (hd : draftQuestionsOk acc.1) (hs : storeQuestionsOk acc.2) :
    draftQuestionsOk (wizardStep u acc ev).1 ∧
    storeQuestionsOk (wizardStep u acc ev).2 := by
  match ev with
  | .message t =>
    match hacc : acc.1 with
    | none =>
      simp only [wizardStep, hacc]
      exact ⟨trivial, hs⟩
    | some st =>
      have hd' : ∀ q ∈ st.questions, QOk q := by
        rw [hacc] at hd
        exact hd
      simp only [wizardStep, hacc]
      exact handleWizard_preserves_ok u st t acc.2 hd' hs
  | .finishAction =>
    simp only [wizardStep]
    exact handleFinishAction_preserves_ok u acc.1 acc.2 hd hs

theorem runWizard_foldl_ok (u : String) :
    ∀ (events : List WizardInput) (acc : Option AdminState × Store),
    draftQuestionsOk acc.1 → storeQuestionsOk acc.2 →
    draftQuestionsOk (events.foldl (wizardStep u) acc).1 ∧
    storeQuestionsOk (events.foldl (wizardStep u) acc).2 := by
  intro events
  induction events with
  | nil => intro acc hd hs; exact ⟨hd, hs⟩
  | cons ev rest ih =>
    intro acc hd hs
    obtain ⟨hd', hs'⟩ := wizardStep_preserves_ok u acc ev hd hs
    exact ih (wizardStep u acc ev) hd' hs'

/-- C3: for every question row a wizard session writes to the store, the
stored zero-based correct-option index lies within
`[0, optionCount - 1]`: starting from any store whose question rows are
in bounds, after any sequence of wizard events every question row of the
resulting store is in bounds. -/
theorem wizard_correct_index_in_bounds (u : String) (events : List WizardInput)
    (store : Store)
    (hstore : ∀ r ∈ store.questions,
      0 ≤ r.correctOption ∧ r.correctOption < (r.options.length : Int)) :
    ∀ r ∈ (runWizard u events store).2.questions,
      0 ≤ r.correctOption ∧ r.correctOption < (r.options.length : Int) := by
  have h := runWizard_foldl_ok u events (some initialAdminState, store)
    (by intro q hq; simp [initialAdminState] at hq) hstore
  exact h.2

/-- The end-to-end wizard session: title, question text, two options,
correct answer 1, then the finish button. -/
def sampleEvents : List WizardInput :=
  [.message (some "T"), .message (some "Q1"), .message (some "A;B"),
   .message (some "1"), .finishAction]

/-- The single question row the sample session persists. -/
def sampleRow : QuestionRow := ⟨1, 1, "Q1", ["A", "B"], 0⟩

/-- Witness for C3: the sample session stores exactly this row, and its
correct index 0 is within `[0, 1]`. -/
theorem wizard_correct_index_in_bounds_witness :
  sampleRow ∈ (runWizard "9" sampleEvents emptyStore).2.questions ∧
  (0 ≤ sampleRow.correctOption ∧
   sampleRow.correctOption < (sampleRow.options.length : Int)) :=
  ⟨by decide,
   wizard_correct_index_in_bounds "9" sampleEvents emptyStore
     (by intro r hr; simp [emptyStore] at hr) sampleRow (by decide)⟩

/-- The answer rows the saving fold appends, with their assigned
autoincrement ids starting at `nid`. -/
def answerRows (u : String) (qid : Nat) (nid : Nat) : List EnrichedAnswer → List AnswerRow
  | [] => []
  | a :: rest =>
    ⟨nid, u, qid, a.questionId, a.selectedOption, if a.correct then 1 else 0⟩ ::
      answerRows u qid (nid + 1) rest

theorem answerRows_length (u : String) (qid : Nat) :
    ∀ (ans : List EnrichedAnswer) (nid : Nat),
    (answerRows u qid nid ans).length = ans.length := by
  intro ans
  induction ans with
  | nil => intro nid; rfl
  | cons a rest ih => intro nid; simp [answerRows, ih]

theorem saveQuizAnswers_answers_eq (u : String) (qid : Nat) :
    ∀ (ans : List EnrichedAnswer) (st : Store),
    (saveQuizAnswers u qid ans st).answers =
      st.answers ++ answerRows u qid st.nextAnswerId ans := by
  intro ans
  induction ans with
  | nil => intro st; simp [saveQuizAnswers, answerRows]
  | cons a rest ih =>
    intro st
    have h := ih (insertAnswerRow u qid a.questionId a.selectedOption a.correct st)
    simp [saveQuizAnswers, insertAnswerRow] at h ⊢
    simp [h, answerRows]

theorem answerRows_get (u : String) (qid : Nat) :
    ∀ (ans : List EnrichedAnswer) (nid i : Nat) (a : EnrichedAnswer),
    ans[i]? = some a →
    (answerRows u qid nid ans)[i]? =
      some ⟨nid + i, u, qid, a.questionId, a.selectedOption,
            if a.correct then 1 else 0⟩ := by
  intro ans
  induction ans with
  | nil => intro nid i a h; simp at h
  | cons b rest ih =>
    intro nid i a h
    match i with
    | 0 =>
      simp at h
      subst h
      simp [answerRows]
    | i + 1 =>
      simp at h
      have := ih (nid + 1) i a h
      simp [answerRows, this]
      omega

/-- C7: every answer row recorded from a `quiz_result` payload whose
question id resolves to a question of the quiz stores, as its correctness
flag, exactly the comparison of the submitted selected option with that
question's stored correct-option index. -/
theorem answer_flag_matches_question (u : String) (quizId : Nat)
    (ans : List SubmittedAnswer) (store : Store) (qz : QuizRow)
    (qs : List QuestionRow) (i : Nat) (q : QuestionRow)
    (hq : getQuizWithQuestions store quizId = some (qz, qs))
    (hi : i < ans.length)
    (hfind : qs.find? (fun r => r.id == ans[i].questionId) = some q) :
    (handleWebAppData u quizId ans store).1.answers[store.answers.length + i]? =
      some ⟨store.nextAnswerId + i, u, quizId, ans[i].questionId,
            ans[i].selectedOption,
            if q.correctOption = ans[i].selectedOption then 1 else 0⟩ := by
  have hmap : (ans.map (enrich qs))[i]? = some (enrich qs ans[i]) := by
    simp [List.getElem?_map, List.getElem?_eq_getElem hi]
  have henrich : enrich qs ans[i] =
      ⟨ans[i].questionId, ans[i].selectedOption,
       q.correctOption == ans[i].selectedOption⟩ := by
    simp [enrich, hfind]
  rw [henrich] at hmap
  have hrow := answerRows_get u quizId (ans.map (enrich qs))
    store.nextAnswerId i _ hmap
  simp only [handleWebAppData, hq]
  rw [saveQuizAnswers_answers_eq]
  rw [List.getElem?_append_right (by omega)]
  simp only [Nat.add_sub_cancel_left]
  rw [hrow]
  by_cases hc : q.correctOption = ans[i].selectedOption
  · simp [hc]
  · simp [hc]

/-- C10: an answer of a `quiz_result` payload whose question id matches
no question of the quiz is not rejected — every submitted answer becomes
a row, and the unmatched one is stored with correctness flag 0. -/
theorem unmatched_answer_recorded_incorrect (u : String) (quizId : Nat)
    (ans : List SubmittedAnswer) (store : Store) (qz : QuizRow)
    (qs : List QuestionRow) (i : Nat)
    (hq : getQuizWithQuestions store quizId = some (qz, qs))
    (hi : i < ans.length)
    (hfind : qs.find? (fun r => r.id == ans[i].questionId) = none) :
    (handleWebAppData u quizId ans store).1.answers.length =
      store.answers.length + ans.length ∧
    (handleWebAppData u quizId ans store).1.answers[store.answers.length + i]? =
      some ⟨store.nextAnswerId + i, u, quizId, ans[i].questionId,
            ans[i].selectedOption, 0⟩ := by
  have hmap : (ans.map (enrich qs))[i]? = some (enrich qs ans[i]) := by
    simp [List.getElem?_map, List.getElem?_eq_getElem hi]
  have henrich : enrich qs ans[i] =
      ⟨ans[i].questionId, ans[i].selectedOption, false⟩ := by
    simp [enrich, hfind]
  rw [henrich] at hmap
  have hrow := answerRows_get u quizId (ans.map (enrich qs))
    store.nextAnswerId i _ hmap
  constructor
  · simp only [handleWebAppData, hq]
    rw [saveQuizAnswers_answers_eq]
    simp [answerRows_length]
  · simp only [handleWebAppData, hq]
    rw [saveQuizAnswers_answers_eq]
    rw [List.getElem?_append_right (by omega)]
    simp only [Nat.add_sub_cancel_left]
    rw [hrow]
    simp

/-- A store holding one quiz with one question, for the answer-recording
witnesses. -/
def sampleStore : Store :=
  { quizzes := [⟨1, "T", "9"⟩],
    questions := [⟨1, 1, "Q1", ["A", "B"], 0⟩],
    answers := [],
    nextQuizId := 2, nextQuestionId := 2, nextAnswerId := 1 }

/-- Witness for C7: submitting option 0 for question 1 (whose correct
index is 0) stores an answer row flagged 1. -/
theorem answer_flag_matches_question_witness :
  getQuizWithQuestions sampleStore 1 =
    some (⟨1, "T", "9"⟩, [⟨1, 1, "Q1", ["A", "B"], 0⟩]) ∧
  (handleWebAppData "7" 1 [⟨1, 0⟩] sampleStore).1.answers[0]? =
    some ⟨1, "7", 1, 1, 0, 1⟩ := by
  constructor
  · decide
  · have h := answer_flag_matches_question "7" 1 [⟨1, 0⟩] sampleStore
      ⟨1, "T", "9"⟩ [⟨1, 1, "Q1", ["A", "B"], 0⟩] 0 ⟨1, 1, "Q1", ["A", "B"], 0⟩
      (by decide) (by decide) (by decide)
    simpa using h

/-- Witness for C10: an answer naming the nonexistent question 99 is
still recorded, flagged 0. -/
theorem unmatched_answer_recorded_incorrect_witness :
  (handleWebAppData "7" 1 [⟨99, 1⟩] sampleStore).1.answers.length = 1 ∧
  (handleWebAppData "7" 1 [⟨99, 1⟩] sampleStore).1.answers[0]? =
    some ⟨1, "7", 1, 99, 1, 0⟩ := by
  have h := unmatched_answer_recorded_incorrect "7" 1 [⟨99, 1⟩] sampleStore
    ⟨1, "T", "9"⟩ [⟨1, 1, "Q1", ["A", "B"], 0⟩] 0
    (by decide) (by decide) (by decide)
  exact ⟨by simpa using h.1, by simpa using h.2⟩

end QuizBot
